import Mathlib

/-!
Verification of the PhoneExtract frontend core: the data model of the
`src/unnamed/part_000` API module (ExtractedNumber, Group, ExistingContact,
ComparisonStats), the pure UI logic shipped under `src/` (NumbersTable's
number cell, the import page's `handleImport` guard, `getCountryFlag`), and
spec-modelled definitions for the backend pipeline (normalizer, deduplicator,
grouper, CSV importer, comparator), whose Python code is not part of the
repository's files — only its spec (`spec.md`) and its frontend callers are.
-/

namespace PhoneExtract

/-- Per-row comparison status of the frontend `ExtractedNumber` interface:
the union type `'new' | 'existing' | 'unknown'` of `src/unnamed/part_000`
line 25. -/
inductive ComparisonStatus where
  | new
  | existing
  | unknown
  deriving DecidableEq, Fintype, Repr

/-- Entry of the `groups` array embedded in `ExtractedNumber`
(`src/unnamed/part_000` line 24). -/
structure GroupBadge where
  id : String
  name : String
  color : String
  deriving DecidableEq, Repr

/-- The `ExtractedNumber` interface (`src/unnamed/part_000` lines 13-26):
nullable TypeScript fields become `Option`, `number` counts become `Nat`. -/
structure ExtractedNumber where
  id : String
  screenshot_id : Option String
  raw_number : String
  normalized_number : Option String
  country_code : Option String
  country_name : Option String
  carrier : Option String
  number_type : Option String
  is_valid : Bool
  extracted_at : String
  groups : List GroupBadge
  comparison_status : ComparisonStatus
  deriving DecidableEq, Repr

/-- The `Group` interface (`src/unnamed/part_000` lines 28-36). -/
structure Group where
  id : String
  name : String
  description : Option String
  color : String
  is_system : Bool
  created_at : String
  numbers_count : Nat
  deriving DecidableEq, Repr

/-- The `ExistingContact` interface (`src/unnamed/part_000` lines 38-48). -/
structure ExistingContact where
  id : String
  normalized_number : String
  raw_number : Option String
  name : Option String
  email : Option String
  company : Option String
  source : String
  zoho_id : Option String
  created_at : String
  deriving DecidableEq, Repr

/-- The `ComparisonStats` interface (`src/unnamed/part_000` lines 50-58);
`match_rate` is a TypeScript `number`, embedded as a rational. -/
structure ComparisonStats where
  total_extracted : Nat
  total_existing_contacts : Nat
  exact_matches : Nat
  partial_matches : Nat
  new_numbers : Nat
  not_compared : Nat
  match_rate : ℚ
  deriving DecidableEq, Repr

/-- The `ImportResult` interface of the import page
(`src/unnamed/part_002` lines 22-28). -/
structure ImportResult where
  total_rows : Nat
  imported : Nat
  skipped : Nat
  duplicates : Nat
  invalid_phones : Nat
  deriving DecidableEq, Repr

/-- The four-valued per-row classification the spec describes (§3:
"classification in \x7bnew, existing-exact, existing-partial, unknown\x7d").
This follows the spec's words, to be compared with the three-valued
`ComparisonStatus` the code actually exposes per row. -/
inductive SpecClassification where
  | specNew
  | specExistingExact
  | specExistingPartial
  | specUnknown
  deriving DecidableEq, Fintype, Repr

/-- How the screenshot detail page feeds rows to `NumbersTable`
(`src/frontend/app/screenshots/[id]/page.tsx` lines 193-197): every row is
given `comparison_status: 'unknown'` (and `groups: n.groups || []`, which in
the typed model is already a list). -/
def screenshotDetailRow (n : ExtractedNumber) : ExtractedNumber :=
  { n with comparison_status := ComparisonStatus.unknown }

/-- Claim C1 counterexample: the per-row classification exposed at the public
API interface cannot take four distinguishable values — there is no injection
of the spec's four-valued classification into the three-valued
`comparison_status` union of `src/unnamed/part_000`, so the exact and partial
cases are not distinguishable per row. -/
theorem comparison_status_not_four_valued :
    ¬ ∃ f : SpecClassification → ComparisonStatus, Function.Injective f := by
  decide

/-- Claim C1 (amended): for every `ExtractedNumber` at the public API
interface, `comparison_status` is one of exactly the three values
new, existing, unknown (pairwise distinct); exact and partial matches are not
distinguishable per row, only in the aggregate stats; and the screenshot
detail page classifies every row it renders as unknown. -/
theorem comparison_status_exactly_three :
    (∀ n : ExtractedNumber,
      n.comparison_status = ComparisonStatus.new ∨
      n.comparison_status = ComparisonStatus.existing ∨
      n.comparison_status = ComparisonStatus.unknown) ∧
    (ComparisonStatus.new ≠ ComparisonStatus.existing ∧
      ComparisonStatus.new ≠ ComparisonStatus.unknown ∧
      ComparisonStatus.existing ≠ ComparisonStatus.unknown) ∧
    (∀ n : ExtractedNumber,
      (screenshotDetailRow n).comparison_status = ComparisonStatus.unknown) := by
  refine ⟨fun n => ?_, by decide, fun n => rfl⟩
  cases h : n.comparison_status
  · exact Or.inl rfl
  · exact Or.inr (Or.inl rfl)
  · exact Or.inr (Or.inr rfl)

/-- JavaScript `a || b` on a nullable string: both `null` and the empty
string are falsy, so they fall through to `b`. -/
def jsOrString (a : Option String) (b : String) : String :=
  match a with
  | some s => if s = "" then b else s
  | none => b

/-- The number cell of `NumbersTable`
(`src/frontend/components/NumbersTable.tsx` line 121):
`num.normalized_number || num.raw_number`. -/
def numberCellText (n : ExtractedNumber) : String :=
  jsOrString n.normalized_number n.raw_number

/-- `NumbersTable` renders exactly one row (hence one number cell) per
element of `numbers` (`src/frontend/components/NumbersTable.tsx`
lines 107-194); no row is filtered out. -/
def renderedNumberCells (numbers : List ExtractedNumber) : List String :=
  numbers.map numberCellText

/-- A row whose `normalized_number` is the non-null empty string: JavaScript
truthiness sends its number cell to the raw text. -/
def emptyNormalizedRow : ExtractedNumber :=
  { id := "n1", screenshot_id := some "s1", raw_number := "0555 123",
    normalized_number := some "", country_code := none, country_name := none,
    carrier := none, number_type := none, is_valid := false,
    extracted_at := "2024-01-01", groups := [],
    comparison_status := ComparisonStatus.unknown }

/-- Claim C9 counterexample: `emptyNormalizedRow` has a non-null
`normalized_number` (`some ""`), yet its number cell displays the raw text,
because `||` treats the empty string as falsy — the claim's "non-null implies
normalized is displayed" fails at this row. -/
theorem numberCell_empty_normalized :
    emptyNormalizedRow.normalized_number = some "" ∧
    numberCellText emptyNormalizedRow = "0555 123" ∧
    numberCellText emptyNormalizedRow ≠ "" := by
  refine ⟨rfl, rfl, by decide⟩

/-- Claim C9 (amended): the number cell displays `normalized_number` when it
is non-null and non-empty, and `raw_number` when it is null or empty; and no
row is ever dropped — `NumbersTable` renders one cell per input row. -/
theorem numberCell_display :
    (∀ (n : ExtractedNumber) (s : String),
      n.normalized_number = some s → s ≠ "" → numberCellText n = s) ∧
    (∀ n : ExtractedNumber,
      n.normalized_number = none ∨ n.normalized_number = some "" →
      numberCellText n = n.raw_number) ∧
    (∀ ns : List ExtractedNumber, (renderedNumberCells ns).length = ns.length) := by
  refine ⟨fun n s hs hne => ?_, fun n h => ?_, fun ns => ?_⟩
  · simp [numberCellText, jsOrString, hs, hne]
  · rcases h with h | h <;> simp [numberCellText, jsOrString, h]
  · simp [renderedNumberCells]

/-- The fixed calling-code-to-flag table of `getCountryFlag`
(`src/unnamed/part_001` lines 16-42): the entries of the `flags` record
literal, in source order. -/
def flagEntries : List (String × String) :=
  [("+1", "🇺🇸"), ("+91", "🇮🇳"), ("+44", "🇬🇧"), ("+61", "🇦🇺"),
   ("+971", "🇦🇪"), ("+92", "🇵🇰"), ("+880", "🇧🇩"), ("+86", "🇨🇳"),
   ("+81", "🇯🇵"), ("+49", "🇩🇪"), ("+33", "🇫🇷"), ("+39", "🇮🇹"),
   ("+7", "🇷🇺"), ("+55", "🇧🇷"), ("+52", "🇲🇽"), ("+966", "🇸🇦"),
   ("+27", "🇿🇦"), ("+234", "🇳🇬"), ("+254", "🇰🇪"), ("+63", "🇵🇭"),
   ("+84", "🇻🇳"), ("+62", "🇮🇩"), ("+60", "🇲🇾"), ("+65", "🇸🇬"),
   ("+66", "🇹🇭")]

/-- Lookup in the `flags` record literal: `flags[countryCode]` yields the
mapped value, or undefined when the key is absent. -/
def flagOf (c : String) : Option String :=
  (flagEntries.find? (fun p => p.1 == c)).map (fun p => p.2)

/-- `getCountryFlag` (`src/unnamed/part_001` lines 15-44):
`countryCode ? flags[countryCode] || '🌍' : '🌍'`, with JavaScript
truthiness on both the argument and the lookup result. -/
def getCountryFlag (countryCode : Option String) : String :=
  match countryCode with
  | none => "🌍"
  | some c => if c = "" then "🌍" else jsOrString (flagOf c) "🌍"

theorem flagOf_value_ne_empty : ∀ c f, flagOf c = some f → f ≠ "" := by
  intro c f h
  unfold flagOf at h
  rcases hq : flagEntries.find? (fun p => p.1 == c) with _ | q
  · rw [hq] at h
    exact Option.noConfusion h
  · rw [hq] at h
    have hmem : q ∈ flagEntries := List.mem_of_find?_eq_some hq
    have hall : ∀ r ∈ flagEntries, r.2 ≠ "" := by decide
    have hqf : q.2 = f := by simpa using h
    rw [← hqf]
    exact hall q hmem

/-- Claim C10: `getCountryFlag` is total — for every argument it returns a
string: the mapped flag for each code in the fixed table, and the globe
fallback for null and for every unmapped code (including the empty string,
which JavaScript truthiness also sends to the fallback branch). -/
theorem getCountryFlag_total :
    (∀ c f, flagOf c = some f → getCountryFlag (some c) = f) ∧
    (∀ c, flagOf c = none → getCountryFlag (some c) = "🌍") ∧
    getCountryFlag none = "🌍" := by
  refine ⟨fun c f h => ?_, fun c h => ?_, rfl⟩
  · have hc : ¬ c = "" := by
      intro e
      subst e
      have h0 : flagOf "" = none := by decide
      rw [h0] at h
      exact Option.noConfusion h
    have hf : ¬ f = "" := flagOf_value_ne_empty c f h
    simp [getCountryFlag, jsOrString, hc, h, hf]
  · by_cases hc : c = ""
    · simp [getCountryFlag, hc]
    · simp [getCountryFlag, jsOrString, hc, h]

/-- The arguments `handleImport` forwards to `importZohoCsv`
(`src/unnamed/part_000` lines 202-224): only the phone column is a required
parameter; the other roles are optional. -/
structure ImportCall where
  phone_column : String
  name_column : Option String
  email_column : Option String
  company_column : Option String
  deriving DecidableEq, Repr

/-- JavaScript `s || undefined` on a text field: the empty string (the
"Select column..." option of the mapping UI) becomes `undefined`. -/
def strOrNone (s : String) : Option String :=
  if s = "" then none else some s

/-- `handleImport` of the import page (`src/unnamed/part_002` lines 80-100):
`if (!file || !phoneColumn) return;` then
`importZohoCsv(file, phoneColumn, nameColumn || undefined, ...)`. The result
is the call it makes, or `none` when it returns without importing. -/
def handleImport (hasFile : Bool) (phoneColumn nameColumn emailColumn companyColumn : String) :
    Option ImportCall :=
  if hasFile = false ∨ phoneColumn = "" then none
  else
    some { phone_column := phoneColumn, name_column := strOrNone nameColumn,
           email_column := strOrNone emailColumn,
           company_column := strOrNone companyColumn }

/-- Claim C6: the contact import runs only when a phone column has been
chosen, and needs no other role: whenever it invokes `importZohoCsv` the
phone column is non-empty; with a file and only a phone column mapped
the import proceeds (the other roles are passed as undefined); and with no phone
column it is refused, whatever the other mappings. -/
theorem import_requires_only_phone :
    (∀ (hasFile : Bool) (p nm em co : String),
      handleImport hasFile p nm em co ≠ none → ¬ p = "") ∧
    (∀ p : String, ¬ p = "" →
      handleImport true p "" "" "" =
        some { phone_column := p, name_column := none, email_column := none,
               company_column := none }) ∧
    (∀ (hasFile : Bool) (nm em co : String), handleImport hasFile "" nm em co = none) := by
  refine ⟨fun hasFile p nm em co h => ?_, fun p hp => ?_, fun hasFile nm em co => ?_⟩
  · intro hp
    exact h (by simp [handleImport, hp])
  · simp [handleImport, hp, strOrNone]
  · simp [handleImport]

/-- Modelled from the spec: the backend Comparator's per-row classification
(§4.5); the FastAPI comparator itself is not under src/, only its REST caller
`runComparison` (`src/unnamed/part_000` lines 172-176) is. -/
inductive Classification where
  | fresh
  | existingExact
  | existingPartial
  | notCompared
  deriving DecidableEq, Repr

/-- Modelled from the spec (§4.5 rule 2, glossary "Partial match"): strip a
leading country calling code from a normalized string when it carries one. -/
def stripCallingCode (cc : Option String) (s : String) : String :=
  match cc with
  | none => s
  | some p => if s.startsWith p then s.drop p.length else s

/-- Modelled from the spec: classify one extracted row against the contact
store (§4.5, first match wins): null canonical → unknown; verbatim equality
of normalized numbers → exact; equality after stripping the row's country
calling code from either side → partial; otherwise new. -/
def classify (contacts : List ExistingContact) (e : ExtractedNumber) : Classification :=
  match e.normalized_number with
  | none => Classification.notCompared
  | some c =>
    if contacts.any (fun k => k.normalized_number == c) then
      Classification.existingExact
    else if contacts.any (fun k =>
        stripCallingCode e.country_code c ==
          stripCallingCode e.country_code k.normalized_number) then
      Classification.existingPartial
    else
      Classification.fresh

/-- Occurrences of one classification among a run's per-row results. -/
def countClass (cls : List Classification) (c : Classification) : Nat :=
  cls.countP (fun x => x == c)

/-- Modelled from the spec: the aggregate ComparisonStats snapshot a
comparator run derives from the two stores (§3, §4.5):
match rate = (exact + partial) / total extracted, 0 when nothing was
extracted. -/
def compStats (ext : List ExtractedNumber) (contacts : List ExistingContact) :
    ComparisonStats :=
  let cls := ext.map (classify contacts)
  { total_extracted := ext.length
    total_existing_contacts := contacts.length
    exact_matches := countClass cls Classification.existingExact
    partial_matches := countClass cls Classification.existingPartial
    new_numbers := countClass cls Classification.fresh
    not_compared := countClass cls Classification.notCompared
    match_rate :=
      if ext.length = 0 then 0
      else ((countClass cls Classification.existingExact
            + countClass cls Classification.existingPartial : Nat) : ℚ)
          / (ext.length : ℚ) }

theorem countClass_pair_le_length (cls : List Classification) :
    countClass cls Classification.existingExact
      + countClass cls Classification.existingPartial ≤ cls.length := by
  induction cls with
  | nil => simp [countClass]
  | cons a t ih =>
    cases a <;>
      simp [countClass, List.countP_cons] at ih ⊢ <;>
      omega

/-- Claim C2: for every pair of stores, the stats snapshot satisfies the match
rate formula — 0 when total_extracted is 0, and otherwise
(exact_matches + partial_matches) / total_extracted — and the rate is a
fraction in [0, 1]. -/
theorem match_rate_formula (ext : List ExtractedNumber)
    (contacts : List ExistingContact) :
    ((compStats ext contacts).total_extracted = 0 →
      (compStats ext contacts).match_rate = 0) ∧
    ((compStats ext contacts).total_extracted ≠ 0 →
      (compStats ext contacts).match_rate =
        (((compStats ext contacts).exact_matches
          + (compStats ext contacts).partial_matches : Nat) : ℚ)
          / ((compStats ext contacts).total_extracted : ℚ)) ∧
    0 ≤ (compStats ext contacts).match_rate ∧
    (compStats ext contacts).match_rate ≤ 1 := by
  have hle : countClass (ext.map (classify contacts)) Classification.existingExact
      + countClass (ext.map (classify contacts)) Classification.existingPartial
      ≤ ext.length := by
    simpa using countClass_pair_le_length (ext.map (classify contacts))
  refine ⟨fun h0 => ?_, fun hne => ?_, ?_, ?_⟩
  · simp only [compStats] at h0 ⊢
    simp [h0]
  · simp only [compStats] at hne ⊢
    simp [hne]
  · simp only [compStats]
    split_ifs with h0
    · exact le_refl 0
    · positivity
  · simp only [compStats]
    split_ifs with h0
    · exact zero_le_one
    · rw [div_le_one (by positivity)]
      exact_mod_cast hle

/-- The two stores the Comparator reads (§4.5): the full ExtractedNumber and
ExistingContact collections. -/
structure Stores where
  extracted : List ExtractedNumber
  contacts : List ExistingContact
  deriving DecidableEq, Repr

/-- Modelled from the spec: one comparator run (§4.5, design note §9) — a
pure read-then-derive step over the two stores, returning the per-row
classifications, the stats snapshot, and the stores as the run leaves them
(unmutated: the comparator "does not mutate extraction results"). -/
def runComparisonModel (st : Stores) :
    (List Classification × ComparisonStats) × Stores :=
  ((st.extracted.map (classify st.contacts), compStats st.extracted st.contacts), st)

/-- Claim C8: the comparator is deterministic and idempotent — it is a pure
function of the two stores, a run leaves the stores unchanged, and a second
run over the stores the first run leaves behind yields the same per-row
classifications and the same stats. -/
theorem comparator_idempotent (st : Stores) :
    (runComparisonModel st).2 = st ∧
    (runComparisonModel ((runComparisonModel st).2)).1 = (runComparisonModel st).1 ∧
    (runComparisonModel ((runComparisonModel st).2)).2 = st :=
  ⟨rfl, rfl, rfl⟩

/-- Modelled from the spec: the Deduplicator's insert-or-return-existing
decision (§4.3) — dedup key is (screenshot id, canonical form) when the
canonical form is non-null; a row with null canonical form is always
inserted, as evidence of the rejected candidate. The backend deduplicator is
not under src/. -/
def dedupInsert (store : List ExtractedNumber) (r : ExtractedNumber) :
    List ExtractedNumber :=
  match r.normalized_number with
  | none => store ++ [r]
  | some c =>
    if store.any (fun x =>
        x.screenshot_id == r.screenshot_id && x.normalized_number == some c) then
      store
    else store ++ [r]

/-- Reachable states of the number store (§3 lifecycle): grown from the empty
store by deduplicated inserts, with rows also removable (cascade deletion of
a screenshot's numbers). -/
inductive ReachableStore : List ExtractedNumber → Prop where
  | empty : ReachableStore []
  | insert (r : ExtractedNumber) {s : List ExtractedNumber} :
      ReachableStore s → ReachableStore (dedupInsert s r)
  | remove (p : ExtractedNumber → Bool) {s : List ExtractedNumber} :
      ReachableStore s → ReachableStore (s.filter p)

/-- Two rows clash when both carry the same screenshot id and the same
non-null canonical form. -/
def DedupClash (a b : ExtractedNumber) : Prop :=
  a.screenshot_id = b.screenshot_id ∧ a.normalized_number ≠ none ∧
    a.normalized_number = b.normalized_number

/-- The dedup invariant: no two rows of the store clash. -/
def DedupOk (store : List ExtractedNumber) : Prop :=
  store.Pairwise (fun a b => ¬ DedupClash a b)

theorem dedupOk_append_single (s : List ExtractedNumber) (r : ExtractedNumber)
    (h : DedupOk s) (hr : ∀ a ∈ s, ¬ DedupClash a r) : DedupOk (s ++ [r]) := by
  unfold DedupOk at h ⊢
  rw [List.pairwise_append]
  refine ⟨h, List.pairwise_singleton _ _, ?_⟩
  intro a ha b hb
  rw [List.mem_singleton] at hb
  subst hb
  exact hr a ha

theorem dedupInsert_preserves (s : List ExtractedNumber) (r : ExtractedNumber)
    (h : DedupOk s) : DedupOk (dedupInsert s r) := by
  cases hn : r.normalized_number with
  | none =>
    have he : dedupInsert s r = s ++ [r] := by
      unfold dedupInsert
      rw [hn]
    rw [he]
    refine dedupOk_append_single s r h ?_
    rintro a ha ⟨-, hne, hsame⟩
    rw [hn] at hsame
    exact hne hsame
  | some c =>
    cases hany : s.any (fun x =>
        x.screenshot_id == r.screenshot_id && x.normalized_number == some c) with
    | true =>
      have he : dedupInsert s r = s := by
        unfold dedupInsert
        rw [hn]
        simp [hany]
      rw [he]
      exact h
    | false =>
      have he : dedupInsert s r = s ++ [r] := by
        unfold dedupInsert
        rw [hn]
        simp [hany]
      rw [he]
      refine dedupOk_append_single s r h ?_
      rintro a ha ⟨hsid, -, hsame⟩
      rw [hn] at hsame
      rw [List.any_eq_false] at hany
      exact hany a ha (by simp [hsid, hsame])

/-- Claim C3: every reachable state of the number store satisfies the dedup
invariant — no two rows with the same screenshot id and the same non-null
canonical form — while a row with null canonical form is never deduplicated:
inserting it always appends it to the store. -/
theorem dedup_invariant (s : List ExtractedNumber) (h : ReachableStore s) :
    DedupOk s ∧
    ∀ r : ExtractedNumber, r.normalized_number = none →
      dedupInsert s r = s ++ [r] := by
  refine ⟨?_, fun r hr => by simp [dedupInsert, hr]⟩
  induction h with
  | empty => exact List.Pairwise.nil
  | insert r _ ih => exact dedupInsert_preserves _ r ih
  | remove p _ ih => exact ih.sublist (List.filter_sublist _)

/-- A concrete normalized row and the store reached by inserting it twice:
the second insert deduplicates. -/
def sampleRow : ExtractedNumber :=
  { id := "n2", screenshot_id := some "s1", raw_number := "+1 (555) 123-4567",
    normalized_number := some "+15551234567", country_code := some "+1",
    country_name := some "United States", carrier := none,
    number_type := some "mobile", is_valid := true,
    extracted_at := "2024-01-02", groups := [],
    comparison_status := ComparisonStatus.unknown }

def sampleStore : List ExtractedNumber :=
  dedupInsert (dedupInsert [] sampleRow) sampleRow

/-- Claim C3 witness: the dedup invariant, applied to the concrete reachable
store obtained by inserting `sampleRow` twice into the empty store. -/
theorem dedup_invariant_witness :
    DedupOk sampleStore ∧
    ∀ r : ExtractedNumber, r.normalized_number = none →
      dedupInsert sampleStore r = sampleStore ++ [r] :=
  dedup_invariant sampleStore
    (ReachableStore.insert sampleRow (ReachableStore.insert sampleRow ReachableStore.empty))

/-- Result of a successful external phone parse (§6: the Phone Parser
capability's `parse(raw, region) -> {canonical, country_code, country_name,
type, is_valid} | ParseFailure`; failure is `none`). -/
structure ParseOk where
  canonical : String
  country_code : String
  country_name : String
  number_type : String
  is_valid : Bool
  deriving DecidableEq, Repr

/-- Modelled from the spec: the Normalizer's output record (§4.2) — a
canonicalized record or a data-carrying rejection (canonical null,
is_valid false). -/
structure NormRecord where
  raw : String
  canonical : Option String
  country_code : Option String
  country_name : Option String
  number_type : Option String
  is_valid : Bool
  deriving DecidableEq, Repr

/-- The rejection outcome: raw text kept, canonical null, flagged invalid. -/
def rejectedRecord (cand : String) : NormRecord :=
  { raw := cand, canonical := none, country_code := none, country_name := none,
    number_type := none, is_valid := false }

/-- A record built from a parse result (validity carried through). -/
def acceptedRecord (cand : String) (p : ParseOk) : NormRecord :=
  { raw := cand, canonical := some p.canonical,
    country_code := some p.country_code, country_name := some p.country_name,
    number_type := some p.number_type, is_valid := p.is_valid }

/-- Modelled from the spec: the regions the Normalizer tries for a candidate
(§4.2) — the supplied default region first, then, when the candidate carries
an explicit plus country code, the region of that code. -/
def triedRegions (regionOfPlus : String → Option String)
    (defaultRegion cand : String) : List String :=
  defaultRegion ::
    (if cand.startsWith "+" then (regionOfPlus cand).toList else [])

/-- Modelled from the spec: the Normalizer policy (§4.2). Try the default
region; on an invalid or failed parse of a plus-prefixed candidate, retry
with the plus code's region; a candidate no tried region parses is marked
rejected — a data-carrying failure, not an exception. -/
def normalizeCandidate (parse : String → String → Option ParseOk)
    (regionOfPlus : String → Option String) (defaultRegion cand : String) :
    NormRecord :=
  let retryRegion : Option String :=
    if cand.startsWith "+" then regionOfPlus cand else none
  match parse cand defaultRegion with
  | some p =>
    if p.is_valid then acceptedRecord cand p
    else
      match retryRegion with
      | some r2 =>
        match parse cand r2 with
        | some p2 => acceptedRecord cand p2
        | none => acceptedRecord cand p
      | none => acceptedRecord cand p
  | none =>
    match retryRegion with
    | some r2 =>
      match parse cand r2 with
      | some p2 => acceptedRecord cand p2
      | none => rejectedRecord cand
    | none => rejectedRecord cand

/-- The ExtractedNumber row the pipeline stores for a normalizer outcome. -/
def toExtractedRow (sid : Option String) (rid stamp : String)
    (rec : NormRecord) : ExtractedNumber :=
  { id := rid, screenshot_id := sid, raw_number := rec.raw,
    normalized_number := rec.canonical, country_code := rec.country_code,
    country_name := rec.country_name, carrier := none,
    number_type := rec.number_type, is_valid := rec.is_valid,
    extracted_at := stamp, groups := [],
    comparison_status := ComparisonStatus.unknown }

/-- Claim C7: a candidate that fails to parse under every tried region yields
a data-carrying rejection — the normalizer returns the rejection record, and
storing it appends to the store a row whose raw_number is the original text,
whose normalized_number is null and whose is_valid flag is false. -/
theorem parse_rejection_stored (parse : String → String → Option ParseOk)
    (regionOfPlus : String → Option String) (defaultRegion cand : String)
    (h : ∀ r ∈ triedRegions regionOfPlus defaultRegion cand,
      parse cand r = none) :
    normalizeCandidate parse regionOfPlus defaultRegion cand =
      rejectedRecord cand ∧
    ∀ (store : List ExtractedNumber) (sid : Option String) (rid stamp : String),
      dedupInsert store (toExtractedRow sid rid stamp
          (normalizeCandidate parse regionOfPlus defaultRegion cand)) =
        store ++ [toExtractedRow sid rid stamp (rejectedRecord cand)] ∧
      (toExtractedRow sid rid stamp (rejectedRecord cand)).raw_number = cand ∧
      (toExtractedRow sid rid stamp (rejectedRecord cand)).normalized_number = none ∧
      (toExtractedRow sid rid stamp (rejectedRecord cand)).is_valid = false := by
  have hd : parse cand defaultRegion = none :=
    h defaultRegion (by simp [triedRegions])
  have hmain : normalizeCandidate parse regionOfPlus defaultRegion cand =
      rejectedRecord cand := by
    unfold normalizeCandidate
    rw [hd]
    by_cases hp : cand.startsWith "+"
    · simp only [hp, if_true]
      cases hr : regionOfPlus cand with
      | none => simp
      | some r2 =>
        have h2 : parse cand r2 = none :=
          h r2 (by simp [triedRegions, hp, hr])
        simp [h2]
    · simp [hp]
  refine ⟨hmain, fun store sid rid stamp => ?_⟩
  rw [hmain]
  exact ⟨by simp [dedupInsert, toExtractedRow, rejectedRecord], rfl, rfl, rfl⟩

/-- An external parser that rejects everything, and a plus-code region map
that knows nothing: every tried region fails on every candidate. -/
def rejectAllParse : String → String → Option ParseOk := fun _ _ => none

def noneRegionOfPlus : String → Option String := fun _ => none

/-- Claim C7 witness: the rejection theorem applied to the candidate
"call me maybe" under default region "US" with a parser that fails on every
tried region. -/
theorem parse_rejection_stored_witness :
    normalizeCandidate rejectAllParse noneRegionOfPlus "US" "call me maybe" =
      rejectedRecord "call me maybe" ∧
    ∀ (store : List ExtractedNumber) (sid : Option String) (rid stamp : String),
      dedupInsert store (toExtractedRow sid rid stamp
          (normalizeCandidate rejectAllParse noneRegionOfPlus "US" "call me maybe")) =
        store ++ [toExtractedRow sid rid stamp (rejectedRecord "call me maybe")] ∧
      (toExtractedRow sid rid stamp (rejectedRecord "call me maybe")).raw_number =
        "call me maybe" ∧
      (toExtractedRow sid rid stamp
        (rejectedRecord "call me maybe")).normalized_number = none ∧
      (toExtractedRow sid rid stamp (rejectedRecord "call me maybe")).is_valid =
        false :=
  parse_rejection_stored rejectAllParse noneRegionOfPlus "US" "call me maybe"
    (fun _ _ => rfl)

/-- Modelled from the spec: the backend system-group row, keyed by its
country code (§4.3, §5: "a unique constraint on country code for system
groups"); src/ only ships the frontend Group interface, which carries the
derived name but not the key. -/
structure SystemGroupRow where
  country_code : String
  name : String
  color : String
  is_system : Bool
  deriving DecidableEq, Repr

/-- The system group synthesized for a country code (§4.3): localized
country name, deterministic palette color, flagged as a system group. -/
def mkSystemGroup (countryName colorOf : String → String) (cc : String) :
    SystemGroupRow :=
  { country_code := cc, name := countryName cc, color := colorOf cc,
    is_system := true }

/-- Modelled from the spec: lazy insert-or-fetch-on-conflict creation of the
system group for a country code (§4.3): when a system group for the code
exists, attach to it; otherwise create one with the localized country name
and the deterministic palette color. -/
def ensureSystemGroup (countryName colorOf : String → String)
    (groups : List SystemGroupRow) (cc : String) : List SystemGroupRow :=
  if groups.any (fun g => g.is_system && g.country_code == cc) then groups
  else groups ++ [mkSystemGroup countryName colorOf cc]

/-- How many system groups carry a given country code. -/
def countSystemGroups (groups : List SystemGroupRow) (cc : String) : Nat :=
  (groups.filter (fun g => g.is_system && g.country_code == cc)).length

/-- The country codes observed among rows with non-null canonical form, in
store order. -/
def observedCountryCodes (store : List ExtractedNumber) : List String :=
  store.filterMap (fun r =>
    match r.normalized_number with
    | none => none
    | some _ => r.country_code)

theorem countSystemGroups_eq_zero_iff (groups : List SystemGroupRow) (cc : String) :
    countSystemGroups groups cc = 0 ↔
      groups.any (fun g => g.is_system && g.country_code == cc) = false := by
  rw [countSystemGroups, List.length_eq_zero, List.filter_eq_nil_iff,
    List.any_eq_false]

theorem ensureSystemGroup_count (countryName colorOf : String → String)
    (groups : List SystemGroupRow) (cc cc' : String) :
    countSystemGroups (ensureSystemGroup countryName colorOf groups cc) cc' =
      if cc' = cc ∧ countSystemGroups groups cc = 0 then
        countSystemGroups groups cc' + 1
      else countSystemGroups groups cc' := by
  cases hany : groups.any (fun g => g.is_system && g.country_code == cc) with
  | true =>
    have hnz : ¬ countSystemGroups groups cc = 0 := by
      rw [countSystemGroups_eq_zero_iff, hany]
      simp
    have he : ensureSystemGroup countryName colorOf groups cc = groups := by
      unfold ensureSystemGroup
      simp [hany]
    rw [he]
    simp [hnz]
  | false =>
    have hz : countSystemGroups groups cc = 0 := by
      rw [countSystemGroups_eq_zero_iff]
      exact hany
    have he : ensureSystemGroup countryName colorOf groups cc =
        groups ++ [mkSystemGroup countryName colorOf cc] := by
      unfold ensureSystemGroup
      simp [hany]
    rw [he]
    by_cases hcc : cc' = cc
    · subst hcc
      rw [if_pos ⟨rfl, hz⟩]
      unfold countSystemGroups
      rw [List.filter_append]
      simp [List.filter, mkSystemGroup]
    · rw [if_neg (fun h2 => hcc h2.1)]
      unfold countSystemGroups
      rw [List.filter_append]
      have hbeq : (cc == cc') = false := by
        rw [beq_eq_false_iff_ne]
        exact Ne.symm hcc
      have hone : ([mkSystemGroup countryName colorOf cc].filter
          (fun g => g.is_system && g.country_code == cc')) = [] := by
        simp [List.filter, mkSystemGroup, hbeq]
      rw [hone]
      simp

theorem foldl_ensureSystemGroup_count (countryName colorOf : String → String)
    (ccs : List String) (groups : List SystemGroupRow) (cc : String) :
    countSystemGroups (ccs.foldl (ensureSystemGroup countryName colorOf) groups) cc =
      if cc ∈ ccs ∧ countSystemGroups groups cc = 0 then 1
      else countSystemGroups groups cc := by
  induction ccs generalizing groups with
  | nil => simp
  | cons a t ih =>
    rw [List.foldl_cons, ih, ensureSystemGroup_count]
    by_cases hca : cc = a
    · subst hca
      by_cases hz : countSystemGroups groups cc = 0
      · simp [hz]
      · simp [hz]
    · simp [hca]

/-- Claim C4: running the lazy group creation over the country codes observed
among non-null-canonical rows of any store, starting from no groups, yields
exactly one system Group per observed country code (and none for unobserved
codes). The count depends only on membership in the observed set, so it is
the same for every ordering or interleaving of the extractions that observed
the codes. -/
theorem system_group_invariant (countryName colorOf : String → String)
    (store : List ExtractedNumber) (cc : String) :
    countSystemGroups
        ((observedCountryCodes store).foldl
          (ensureSystemGroup countryName colorOf) []) cc =
      if cc ∈ observedCountryCodes store then 1 else 0 := by
  rw [foldl_ensureSystemGroup_count]
  have hz : countSystemGroups [] cc = 0 := rfl
  by_cases hm : cc ∈ observedCountryCodes store
  · rw [if_pos ⟨hm, hz⟩, if_pos hm]
  · rw [if_neg (fun h2 => hm h2.1), if_neg hm]
    exact hz

/-- The zero counters an import run starts from. -/
def zeroImportResult : ImportResult :=
  { total_rows := 0, imported := 0, skipped := 0, duplicates := 0,
    invalid_phones := 0 }

/-- Modelled from the spec: processing one CSV data row of the Zoho import
(§4.4); the backend importer is not under src/, only its caller
`importZohoCsv` and the result shape are. State is the upsert keys
(normalized number, source label) present in the contact store plus the
running counters. A structurally unreadable row (wrong column count, missing
or empty phone cell) is skipped; a phone that fails to normalize counts as
invalid; an already-present upsert key counts as duplicate; everything else
is imported and its key added. -/
def importRow (normalizePhone : String → Option String) (sourceLabel : String)
    (ncols phoneIdx : Nat)
    (st : List (String × String) × ImportResult) (row : List String) :
    List (String × String) × ImportResult :=
  let keys := st.1
  let res0 := st.2
  let res := { res0 with total_rows := res0.total_rows + 1 }
  if row.length ≠ ncols then
    (keys, { res with skipped := res.skipped + 1 })
  else
    match row[phoneIdx]? with
    | none => (keys, { res with skipped := res.skipped + 1 })
    | some v =>
      if v = "" then (keys, { res with skipped := res.skipped + 1 })
      else
        match normalizePhone v with
        | none => (keys, { res with invalid_phones := res.invalid_phones + 1 })
        | some nrm =>
          if (nrm, sourceLabel) ∈ keys then
            (keys, { res with duplicates := res.duplicates + 1 })
          else
            ((nrm, sourceLabel) :: keys,
              { res with imported := res.imported + 1 })

/-- Modelled from the spec: a whole CSV import run (§4.4) over the data rows,
starting from the upsert keys already in the contact store and zero
counters. -/
def runImport (normalizePhone : String → Option String) (sourceLabel : String)
    (ncols phoneIdx : Nat) (keys0 : List (String × String))
    (rows : List (List String)) : List (String × String) × ImportResult :=
  rows.foldl (importRow normalizePhone sourceLabel ncols phoneIdx)
    (keys0, zeroImportResult)

theorem importRow_step (normalizePhone : String → Option String)
    (sourceLabel : String) (ncols phoneIdx : Nat)
    (st : List (String × String) × ImportResult) (row : List String) :
    (importRow normalizePhone sourceLabel ncols phoneIdx st row).2.total_rows =
      st.2.total_rows + 1 ∧
    (importRow normalizePhone sourceLabel ncols phoneIdx st row).2.imported
      + (importRow normalizePhone sourceLabel ncols phoneIdx st row).2.skipped
      + (importRow normalizePhone sourceLabel ncols phoneIdx st row).2.duplicates
      + (importRow normalizePhone sourceLabel ncols phoneIdx st row).2.invalid_phones =
      st.2.imported + st.2.skipped + st.2.duplicates + st.2.invalid_phones + 1 := by
  rcases st with ⟨keys, res⟩
  unfold importRow
  by_cases hlen : row.length ≠ ncols
  · simp [hlen]
    omega
  · simp only [hlen, if_false]
    cases hv : row[phoneIdx]? with
    | none => simp; omega
    | some v =>
      by_cases hve : v = ""
      · simp [hve]
        omega
      · simp only [hve, if_false]
        cases hn : normalizePhone v with
        | none => simp; omega
        | some nrm =>
          by_cases hk : (nrm, sourceLabel) ∈ keys
          · simp [hk]
            omega
          · simp [hk]
            omega

theorem foldl_importRow_counts (normalizePhone : String → Option String)
    (sourceLabel : String) (ncols phoneIdx : Nat) (rows : List (List String))
    (st : List (String × String) × ImportResult) :
    (rows.foldl (importRow normalizePhone sourceLabel ncols phoneIdx) st).2.total_rows =
      st.2.total_rows + rows.length ∧
    (rows.foldl (importRow normalizePhone sourceLabel ncols phoneIdx) st).2.imported
      + (rows.foldl (importRow normalizePhone sourceLabel ncols phoneIdx) st).2.skipped
      + (rows.foldl (importRow normalizePhone sourceLabel ncols phoneIdx) st).2.duplicates
      + (rows.foldl (importRow normalizePhone sourceLabel ncols phoneIdx) st).2.invalid_phones =
      st.2.imported + st.2.skipped + st.2.duplicates + st.2.invalid_phones
        + rows.length := by
  induction rows generalizing st with
  | nil => simp
  | cons row t ih =>
    rw [List.foldl_cons]
    rcases ih (importRow normalizePhone sourceLabel ncols phoneIdx st row) with ⟨ih1, ih2⟩
    rcases importRow_step normalizePhone sourceLabel ncols phoneIdx st row with ⟨hs1, hs2⟩
    constructor
    · rw [ih1, hs1, List.length_cons]
      omega
    · rw [ih2, hs2, List.length_cons]
      omega

/-- Claim C5: for every CSV import run, the returned counters partition the
data rows — total_rows equals imported + skipped + duplicates +
invalid_phones, and total_rows equals the number of data rows processed, so
every row lands in exactly one of the four categories (skipped for
structurally unreadable rows, invalid_phones for phones that fail to
normalize, duplicates for an already-present normalized number plus source
label, imported otherwise). -/
theorem import_counters_partition (normalizePhone : String → Option String)
    (sourceLabel : String) (ncols phoneIdx : Nat)
    (keys0 : List (String × String)) (rows : List (List String)) :
    (runImport normalizePhone sourceLabel ncols phoneIdx keys0 rows).2.total_rows =
      (runImport normalizePhone sourceLabel ncols phoneIdx keys0 rows).2.imported
      + (runImport normalizePhone sourceLabel ncols phoneIdx keys0 rows).2.skipped
      + (runImport normalizePhone sourceLabel ncols phoneIdx keys0 rows).2.duplicates
      + (runImport normalizePhone sourceLabel ncols phoneIdx keys0 rows).2.invalid_phones ∧
    (runImport normalizePhone sourceLabel ncols phoneIdx keys0 rows).2.total_rows =
      rows.length := by
  unfold runImport
  rcases foldl_importRow_counts normalizePhone sourceLabel ncols phoneIdx rows
    (keys0, zeroImportResult) with ⟨h1, h2⟩
  rw [h1, h2]
  simp [zeroImportResult]

end PhoneExtract
